import Mathlib

/-!
Verification of the crossword generator in `script.js`.

The development shallowly embeds the generator's core: the `Grid` class,
the placement validator `comprobarEspacio`, the writer `colocarPalabra`,
the intersection search `encontrarInterseccion`, the builder
`generarCrucigrama`, the vocabulary filter `obtenerPalabrasPorUnidades`,
and the clue-numbering pass of `dibujarGrid`.

Modelling conventions:
* JS strings become `List Char`; `toUpperCase`/`toLowerCase`/`trim` become
  `toUpperL`/`toLowerL`/`jsTrim` (ASCII case mapping).
* Grid coordinates are `Int` (JS numbers can go negative in this code).
* The grid's cell store is a function `Int → Int → Option Char`; `none`
  models the JS `null` cell as well as out-of-bounds reads.
* `Math.random()` draws are an explicit choice stream: the biased shuffle
  becomes the already-shuffled input list, and the random anchor pick at
  iteration `t` becomes `anclaElige t % length` (every JS-reachable pick
  is representable and conversely).
* `Math.floor` division on possibly negative numbers is `Int.fdiv`.
* The unbounded `while` loop runs on fuel; the fuel used is proved
  sufficient (the loop result is fuel-invariant past the measure).
-/

/-- Word orientation, `"horizontal"` or `"vertical"` in the source. -/
inductive Orientacion where
  | horizontal
  | vertical
deriving DecidableEq, Repr, Inhabited

/-- `dx`: the x step of an orientation (`orientacion === "horizontal" ? 1 : 0`). -/
def dxO : Orientacion → Int
  | .horizontal => 1
  | .vertical => 0

/-- `dy`: the y step of an orientation (`orientacion === "vertical" ? 1 : 0`). -/
def dyO : Orientacion → Int
  | .horizontal => 0
  | .vertical => 1

/-- The perpendicular orientation (`=== "horizontal" ? "vertical" : "horizontal"`). -/
def perp : Orientacion → Orientacion
  | .horizontal => .vertical
  | .vertical => .horizontal

/-- `GRID_SIZE = 20`. -/
def GRID_SIZE : Nat := 20

/-- `MAX_INTENTOS = 100`. -/
def MAX_INTENTOS : Nat := 100

/-- The `Grid` class: a fixed size and the cell store.  `cells x y = none`
models a `null` cell. -/
structure Grid where
  size : Nat
  cells : Int → Int → Option Char

/-- The `Grid` constructor: every cell starts as `null`. -/
def Grid.nuevo (size : Nat) : Grid :=
  ⟨size, fun _ _ => none⟩

/-- `esValido(x, y)`: `x >= 0 && x < size && y >= 0 && y < size`. -/
def Grid.esValido (g : Grid) (x y : Int) : Bool :=
  decide (0 ≤ x) && decide (x < (g.size : Int)) &&
    decide (0 ≤ y) && decide (y < (g.size : Int))

/-- `obtenerCelda(x, y)`: `null` out of bounds, the stored cell otherwise. -/
def Grid.obtenerCelda (g : Grid) (x y : Int) : Option Char :=
  if g.esValido x y then g.cells x y else none

/-- `establecerCelda(x, y, valor)`: writes the cell when in bounds, no-op
otherwise. -/
def Grid.establecerCelda (g : Grid) (x y : Int) (valor : Char) : Grid :=
  if g.esValido x y then
    ⟨g.size, fun a b => if a = x ∧ b = y then some valor else g.cells a b⟩
  else g

/-- The body of `comprobarEspacio`'s `for` loop at index `i`: an occupied
cell must be the declared intersection with a matching letter; an empty
cell must have empty orthogonal neighbours. -/
def comprobarLetra (grid : Grid) (palabra : List Char) (x y : Int)
    (orientacion : Orientacion) (indiceInterseccion : Int) (i : Nat) : Bool :=
  let currentX := x + dxO orientacion * i
  let currentY := y + dyO orientacion * i
  match grid.obtenerCelda currentX currentY with
  | some celdaActual =>
      decide ((i : Int) = indiceInterseccion) &&
        decide (celdaActual = palabra.getD i ' ')
  | none =>
      match orientacion with
      | .horizontal =>
          (grid.obtenerCelda currentX (currentY - 1)).isNone &&
            (grid.obtenerCelda currentX (currentY + 1)).isNone
      | .vertical =>
          (grid.obtenerCelda (currentX - 1) currentY).isNone &&
            (grid.obtenerCelda (currentX + 1) currentY).isNone

/-- `comprobarEspacio(grid, palabra, x, y, orientacion, indiceInterseccion)`:
final-cell bounds check, the per-letter loop, and the before-start /
after-end separation checks. -/
def comprobarEspacio (grid : Grid) (palabra : List Char) (x y : Int)
    (orientacion : Orientacion) (indiceInterseccion : Int) : Bool :=
  let dx := dxO orientacion
  let dy := dyO orientacion
  let finalX := x + dx * ((palabra.length : Int) - 1)
  let finalY := y + dy * ((palabra.length : Int) - 1)
  grid.esValido finalX finalY &&
    (List.range palabra.length).all
      (comprobarLetra grid palabra x y orientacion indiceInterseccion) &&
    !(grid.esValido (x - dx) (y - dy) &&
        (grid.obtenerCelda (x - dx) (y - dy)).isSome) &&
    !(grid.esValido (finalX + dx) (finalY + dy) &&
        (grid.obtenerCelda (finalX + dx) (finalY + dy)).isSome)

/-- `colocarPalabra(grid, palabra, x, y, orientacion)`: writes each letter
along the orientation (out-of-bounds writes are absorbed by
`establecerCelda`). -/
def colocarPalabra (grid : Grid) (palabra : List Char) (x y : Int)
    (orientacion : Orientacion) : Grid :=
  (List.range palabra.length).foldl
    (fun g (i : Nat) =>
      g.establecerCelda (x + dxO orientacion * (i : Int)) (y + dyO orientacion * (i : Int))
        (palabra.getD i ' '))
    grid

example : comprobarEspacio (Grid.nuevo 20) "CASA".toList 8 10 .horizontal (-1) = true := by decide
example : comprobarEspacio (Grid.nuevo 20) "CASA".toList 17 10 .horizontal (-1) = false := by decide
example :
    (colocarPalabra (Grid.nuevo 20) "CASA".toList 8 10 .horizontal).obtenerCelda 9 10 =
      some 'A' := by decide

/-- Shorthand turning a string literal into the `List Char` word model. -/
def str (s : String) : List Char := s.toList

/-- JS `toUpperCase` on the ASCII range. -/
def toUpperL (s : List Char) : List Char := s.map Char.toUpper

/-- JS `toLowerCase` on the ASCII range. -/
def toLowerL (s : List Char) : List Char := s.map Char.toLower

/-- JS `trim`: drop whitespace from both ends (interior whitespace stays). -/
def jsTrim (s : List Char) : List Char :=
  ((s.dropWhile Char.isWhitespace).reverse.dropWhile Char.isWhitespace).reverse

/-- A vocabulary record.  `lugar` is `item["Lugar en el libro"] || ""`,
`unidadLexica` is `item["Unidad Léxica (Español)"] || ''`, `traduccion` is
`item["Traducción (Inglés)"]` with `[]` modelling a missing/empty (falsy)
field. -/
structure Item where
  lugar : List Char
  unidadLexica : List Char
  traduccion : List Char
deriving DecidableEq, Repr, Inhabited

/-- The clue: `item["Traducción (Inglés)"] || item["Unidad Léxica (Español)"]`. -/
def pistaDe (it : Item) : List Char :=
  if it.traduccion.isEmpty then it.unidadLexica else it.traduccion

/-- An entry of the `palabrasColocadas` array. -/
structure PalabraColocada where
  palabra : List Char
  x : Int
  y : Int
  orientacion : Orientacion
  pista : List Char
deriving DecidableEq, Repr, Inhabited

/-- `encontrarInterseccion(grid, palabraAncla, nuevaPalabra, nuevaOrientacion)`:
first letter pair (outer loop over the new word, inner over the anchor)
whose implied placement validates; returns `[nuevoX, nuevoY, i, j]`. -/
def encontrarInterseccion (grid : Grid) (palabraAncla : PalabraColocada)
    (nuevaPalabra : List Char) (nuevaOrientacion : Orientacion) :
    Option (Int × Int × Nat × Nat) :=
  (List.range nuevaPalabra.length).findSome? fun i =>
    (List.range palabraAncla.palabra.length).findSome? fun j =>
      if nuevaPalabra.getD i ' ' = palabraAncla.palabra.getD j ' ' then
        match palabraAncla.orientacion, nuevaOrientacion with
        | .horizontal, .vertical =>
            let nuevoX := palabraAncla.x + (j : Int)
            let nuevoY := palabraAncla.y - (i : Int)
            if comprobarEspacio grid nuevaPalabra nuevoX nuevoY nuevaOrientacion i then
              some (nuevoX, nuevoY, i, j)
            else none
        | .vertical, .horizontal =>
            let nuevoX := palabraAncla.x - (i : Int)
            let nuevoY := palabraAncla.y + (j : Int)
            if comprobarEspacio grid nuevaPalabra nuevoX nuevoY nuevaOrientacion i then
              some (nuevoX, nuevoY, i, j)
            else none
        | _, _ => none
      else none

/-- The mutable locals of `generarCrucigrama`'s `while` loop.  `t` is the
position in the random-anchor choice stream. -/
structure BuilderState where
  grid : Grid
  colocadas : List PalabraColocada
  usadas : List (List Char)
  count : Nat
  intentos : Nat
  t : Nat

/-- The first not-yet-used candidate in shuffle order (the `for` scan over
`palabrasMezcladas` guarded by `palabrasUsadas`). -/
def pasoDisponible (mezcladas : List Item) (usadas : List (List Char)) : Option Item :=
  mezcladas.find? fun candidata => !usadas.contains (toLowerL candidata.unidadLexica)

/-- Loop measure: each failed attempt decreases it by one, each success
resets `intentos` while consuming one of the `numPalabras - count`
remaining placements. -/
def medida (numPalabras : Nat) (st : BuilderState) : Nat :=
  (numPalabras - st.count) * MAX_INTENTOS + (MAX_INTENTOS - st.intentos)

/-- One iteration of the `while` loop body: bump `intentos`, pick the
random anchor, scan for an unused candidate, search an intersection, and on
success place the word and reset `intentos`.  The boolean is `false`
exactly when the `break` fires (no unused candidate remains). -/
def pasoBucle (mezcladas : List Item) (anclaElige : Nat → Nat) (st : BuilderState) :
    BuilderState × Bool :=
  let st1 : BuilderState :=
    { st with intentos := st.intentos + 1, t := st.t + 1 }
  let anclaIndex := anclaElige st.t % st.colocadas.length
  let palabraAncla := st.colocadas.getD anclaIndex default
  match pasoDisponible mezcladas st.usadas with
  | none => (st1, false)
  | some nuevaPalabraObj =>
    let nuevaPalabra := toUpperL nuevaPalabraObj.unidadLexica
    let nuevaOrientacion := perp palabraAncla.orientacion
    match encontrarInterseccion st.grid palabraAncla nuevaPalabra nuevaOrientacion with
    | none => (st1, true)
    | some (nuevoX, nuevoY, _, _) =>
        ({ grid := colocarPalabra st1.grid nuevaPalabra nuevoX nuevoY nuevaOrientacion
           colocadas := st1.colocadas ++
             [⟨nuevaPalabra, nuevoX, nuevoY, nuevaOrientacion, pistaDe nuevaPalabraObj⟩]
           usadas := st1.usadas ++ [toLowerL nuevaPalabraObj.unidadLexica]
           count := st.count + 1
           intentos := 0
           t := st.t + 1 }, true)

/-- The `while (palabrasColocadasCount < numPalabras && intentos < MAX_INTENTOS)`
loop, on fuel: run `pasoBucle` until the guard fails or the `break` fires. -/
def bucle (mezcladas : List Item) (numPalabras : Nat) (anclaElige : Nat → Nat) :
    Nat → BuilderState → BuilderState
  | 0, st => st
  | fuel + 1, st =>
    if st.count < numPalabras ∧ st.intentos < MAX_INTENTOS then
      match pasoBucle mezcladas anclaElige st with
      | (st', false) => st'
      | (st', true) => bucle mezcladas numPalabras anclaElige fuel st'
    else st

/-- `generarCrucigrama`'s result object `{ grid, palabrasColocadas }`. -/
structure Crucigrama where
  grid : Grid
  palabrasColocadas : List PalabraColocada

instance : Inhabited Crucigrama := ⟨⟨Grid.nuevo 0, []⟩⟩

/-- `generarCrucigrama(palabrasDisponibles, numPalabras)`.  The biased
shuffle is modelled by taking the shuffled order as the input list (a
shuffle preserves emptiness, so the `length === 0` early return is checked
on it); `anclaElige` models the stream of `Math.random()` anchor draws.
Returns `null` on an empty pool; otherwise places the first word
horizontally centered and runs the placement loop. -/
def generarCrucigrama (palabrasMezcladas : List Item) (numPalabras : Nat)
    (anclaElige : Nat → Nat) : Option Crucigrama :=
  match palabrasMezcladas with
  | [] => none
  | primeraPalabra :: _ =>
    let palabraUpper := toUpperL primeraPalabra.unidadLexica
    let startX : Int := Int.fdiv ((GRID_SIZE : Int) - (palabraUpper.length : Int)) 2
    let startY : Int := Int.fdiv (GRID_SIZE : Int) 2
    let grid0 := colocarPalabra (Grid.nuevo GRID_SIZE) palabraUpper startX startY .horizontal
    let st0 : BuilderState :=
      { grid := grid0
        colocadas := [⟨palabraUpper, startX, startY, .horizontal, pistaDe primeraPalabra⟩]
        usadas := [toLowerL primeraPalabra.unidadLexica]
        count := 1
        intentos := 0
        t := 0 }
    let stf := bucle palabrasMezcladas numPalabras anclaElige (medida numPalabras st0) st0
    some ⟨stf.grid, stf.colocadas⟩

example :
    ((generarCrucigrama [⟨str "U5 #1", str "casa", str "house"⟩] 1 fun _ => 0).getD
        default).palabrasColocadas =
      [⟨str "CASA", 8, 10, .horizontal, str "house"⟩] := by decide

/-- Grid cell occupied by letter `i` of a placed word: the origin plus `i`
unit steps along the word's orientation. -/
def celdaEn (p : PalabraColocada) (i : Nat) : Int × Int :=
  (p.x + dxO p.orientacion * i, p.y + dyO p.orientacion * i)

/-- Reading the grid back along a placed word recovers the word's letters. -/
def lecturaCorrecta (g : Grid) (p : PalabraColocada) : Prop :=
  ∀ i, i < p.palabra.length →
    g.obtenerCelda (celdaEn p i).1 (celdaEn p i).2 = some (p.palabra.getD i ' ')

/-- Two placed words cross: perpendicular orientations and a shared cell on
which both words carry the same letter. -/
def seCruzan (p q : PalabraColocada) : Prop :=
  p.orientacion ≠ q.orientacion ∧
    ∃ i j, i < p.palabra.length ∧ j < q.palabra.length ∧
      celdaEn p i = celdaEn q j ∧ p.palabra.getD i ' ' = q.palabra.getD j ' '

/-- Crossing invariant of a placed-word list: every word except the first
crosses some other placed word. -/
def invarianteCruce (l : List PalabraColocada) : Prop :=
  ∀ k, 0 < k → k < l.length →
    ∃ m, m < l.length ∧ m ≠ k ∧ seCruzan (l.getD k default) (l.getD m default)

/-- Writing a cell never changes the grid size. -/
lemma establecerCelda_size (g : Grid) (x y : Int) (v : Char) :
    (g.establecerCelda x y v).size = g.size := by
  unfold Grid.establecerCelda
  split <;> rfl

/-- Writing a cell leaves alone every cell other than an in-bounds target. -/
lemma establecerCelda_cells_of_ne (g : Grid) (x y : Int) (v : Char) (a b : Int)
    (h : ¬(g.esValido x y = true ∧ a = x ∧ b = y)) :
    (g.establecerCelda x y v).cells a b = g.cells a b := by
  unfold Grid.establecerCelda
  split
  · next hv =>
      simp only [Grid.mk.injEq]
      by_cases hab : a = x ∧ b = y
      · exact absurd ⟨hv, hab⟩ h
      · simp [hab]
  · rfl

/-- Writing an out-of-bounds cell is a strict no-op. -/
lemma establecerCelda_fuera (g : Grid) (x y : Int) (v : Char)
    (h : g.esValido x y = false) : g.establecerCelda x y v = g := by
  unfold Grid.establecerCelda
  simp [h]

/-- C7: out of bounds, `obtenerCelda` returns the empty sentinel and
`establecerCelda` is a strict no-op; in bounds, `obtenerCelda` reads the
stored cell, and reading after `establecerCelda` sees the written letter at
exactly the target cell and the old content everywhere else. -/
theorem grid_acceso_fuera_de_limites (g : Grid) (x y : Int) (v : Char) (a b : Int) :
    (g.esValido x y = false → g.obtenerCelda x y = none ∧ g.establecerCelda x y v = g) ∧
    (g.esValido x y = true → g.obtenerCelda x y = g.cells x y) ∧
    (g.establecerCelda x y v).obtenerCelda a b =
      (if g.esValido x y = true ∧ a = x ∧ b = y then some v else g.obtenerCelda a b) := by
  refine ⟨fun h => ⟨by simp [Grid.obtenerCelda, h], establecerCelda_fuera g x y v h⟩,
    fun h => by simp [Grid.obtenerCelda, h], ?_⟩
  by_cases hv : g.esValido x y = true
  · unfold Grid.establecerCelda
    rw [if_pos hv]
    by_cases hab : a = x ∧ b = y
    · obtain ⟨rfl, rfl⟩ := hab
      simp [Grid.obtenerCelda, Grid.esValido, hv]
      simp [Grid.esValido] at hv
      simp [hv]
    · simp only [Grid.obtenerCelda, Grid.esValido]
      simp [hab, hv]
  · rw [establecerCelda_fuera g x y v (by simpa using hv)]
    simp [hv]

/-- Witness for `grid_acceso_fuera_de_limites` at a concrete grid and cells. -/
theorem grid_acceso_fuera_de_limites_testigo :
    (((Grid.nuevo 3).esValido 5 1 = false →
        (Grid.nuevo 3).obtenerCelda 5 1 = none ∧
          (Grid.nuevo 3).establecerCelda 5 1 'Z' = Grid.nuevo 3) ∧
      ((Grid.nuevo 3).esValido 5 1 = true →
        (Grid.nuevo 3).obtenerCelda 5 1 = (Grid.nuevo 3).cells 5 1) ∧
      ((Grid.nuevo 3).establecerCelda 5 1 'Z').obtenerCelda 0 2 =
        (if (Grid.nuevo 3).esValido 5 1 = true ∧ (0 : Int) = 5 ∧ (2 : Int) = 1 then some 'Z'
          else (Grid.nuevo 3).obtenerCelda 0 2)) :=
  grid_acceso_fuera_de_limites (Grid.nuevo 3) 5 1 'Z' 0 2

/-- C8: an empty pool makes the builder return the failure signal `none`;
in the embedding this branch is taken before any grid value is formed. -/
theorem generarCrucigrama_pool_vacio (numPalabras : Nat) (anclaElige : Nat → Nat) :
    generarCrucigrama [] numPalabras anclaElige = none := rfl

/-- C1: if letter position `i` of the candidate lands on an occupied cell
and is not the declared intersection index with a matching letter, the
validator rejects the placement. -/
theorem comprobarEspacio_ocupada_solo_interseccion (grid : Grid) (palabra : List Char)
    (x y : Int) (orientacion : Orientacion) (indiceInterseccion : Int) (i : Nat) (c : Char)
    (hi : i < palabra.length)
    (hc : grid.obtenerCelda (x + dxO orientacion * (i : Int))
        (y + dyO orientacion * (i : Int)) = some c)
    (hne : ¬((i : Int) = indiceInterseccion ∧ c = palabra.getD i ' ')) :
    comprobarEspacio grid palabra x y orientacion indiceInterseccion = false := by
  have hletra : comprobarLetra grid palabra x y orientacion indiceInterseccion i = false := by
    unfold comprobarLetra
    simp only [hc]
    rcases not_and_or.mp hne with h | h
    · simp [h]
    · simp only [List.getD_eq_getElem?_getD] at h
      simp [h]
  have hall :
      (List.range palabra.length).all
        (comprobarLetra grid palabra x y orientacion indiceInterseccion) = false := by
    cases hA : (List.range palabra.length).all
        (comprobarLetra grid palabra x y orientacion indiceInterseccion) with
    | false => rfl
    | true =>
        have := List.all_eq_true.mp hA i (List.mem_range.mpr hi)
        rw [hletra] at this
        exact absurd this (by simp)
  unfold comprobarEspacio
  simp [hall]

/-- Witness for `comprobarEspacio_ocupada_solo_interseccion`: a grid holding
an `A` at the origin rejects `"AB"` laid over it with no declared
intersection. -/
theorem comprobarEspacio_ocupada_solo_interseccion_testigo :
    comprobarEspacio ((Grid.nuevo 20).establecerCelda 0 0 'A') (str "AB") 0 0
      .horizontal (-1) = false :=
  comprobarEspacio_ocupada_solo_interseccion ((Grid.nuevo 20).establecerCelda 0 0 'A')
    (str "AB") 0 0 .horizontal (-1) 0 'A' (by decide) (by decide) (by decide)

/-- Frame property of `colocarPalabra`'s write loop: a cell that is out of
bounds, or off the word's path, keeps its content; the size never changes. -/
lemma foldl_establecer_frame (palabra : List Char) (x y : Int) (o : Orientacion)
    (a b : Int) :
    ∀ (is : List Nat) (g : Grid),
      (g.esValido a b = false ∨
        ∀ i ∈ is, ¬(a = x + dxO o * (i : Int) ∧ b = y + dyO o * (i : Int))) →
      ((is.foldl
          (fun g (i : Nat) =>
            g.establecerCelda (x + dxO o * (i : Int)) (y + dyO o * (i : Int))
              (palabra.getD i ' ')) g).cells a b = g.cells a b ∧
        (is.foldl
          (fun g (i : Nat) =>
            g.establecerCelda (x + dxO o * (i : Int)) (y + dyO o * (i : Int))
              (palabra.getD i ' ')) g).size = g.size)
  | [], _, _ => ⟨rfl, rfl⟩
  | i :: is, g, h => by
    have hcell :
        (g.establecerCelda (x + dxO o * (i : Int)) (y + dyO o * (i : Int))
          (palabra.getD i ' ')).cells a b = g.cells a b := by
      apply establecerCelda_cells_of_ne
      rintro ⟨hv, ha, hb⟩
      rcases h with h | h
      · rw [ha, hb] at h
        rw [h] at hv
        exact Bool.false_ne_true hv
      · exact h i (List.mem_cons_self i is) ⟨ha, hb⟩
    have hsz :
        (g.establecerCelda (x + dxO o * (i : Int)) (y + dyO o * (i : Int))
          (palabra.getD i ' ')).size = g.size :=
      establecerCelda_size _ _ _ _
    have hrec := foldl_establecer_frame palabra x y o a b is
      (g.establecerCelda (x + dxO o * (i : Int)) (y + dyO o * (i : Int))
        (palabra.getD i ' '))
      (by
        rcases h with h | h
        · left
          unfold Grid.esValido
          rw [hsz]
          unfold Grid.esValido at h
          exact h
        · right
          exact fun j hj => h j (List.mem_cons_of_mem i hj))
    exact ⟨hrec.1.trans hcell, hrec.2.trans hsz⟩

/-- C10: placing a word only touches the in-bounds cells on the word's
path (origin plus unit steps along its orientation): any other cell, and
the grid size, are unchanged.  (`comprobarEspacio` performs only
`obtenerCelda`/`esValido` reads in the source and is embedded as a pure
`Bool`-valued function, so it modifies nothing by construction.) -/
theorem colocarPalabra_frame (grid : Grid) (palabra : List Char) (x y : Int)
    (orientacion : Orientacion) (a b : Int)
    (h : (∀ i, i < palabra.length →
            ¬(a = x + dxO orientacion * (i : Int) ∧ b = y + dyO orientacion * (i : Int))) ∨
          grid.esValido a b = false) :
    (colocarPalabra grid palabra x y orientacion).cells a b = grid.cells a b ∧
    (colocarPalabra grid palabra x y orientacion).size = grid.size := by
  unfold colocarPalabra
  apply foldl_establecer_frame
  rcases h with h | h
  · exact Or.inr fun i hi => h i (List.mem_range.mp hi)
  · exact Or.inl h

/-- Witness for `colocarPalabra_frame`: placing `"AB"` at the origin leaves
cell `(5, 5)` untouched. -/
theorem colocarPalabra_frame_testigo :
    (colocarPalabra (Grid.nuevo 20) (str "AB") 0 0 .horizontal).cells 5 5 =
      (Grid.nuevo 20).cells 5 5 ∧
    (colocarPalabra (Grid.nuevo 20) (str "AB") 0 0 .horizontal).size =
      (Grid.nuevo 20).size :=
  colocarPalabra_frame (Grid.nuevo 20) (str "AB") 0 0 .horizontal 5 5
    (Or.inl (by decide))

/-- Read-back along a placed word is a bounded check, hence decidable. -/
instance decidableLecturaCorrecta (g : Grid) (p : PalabraColocada) :
    Decidable (lecturaCorrecta g p) :=
  Nat.decidableBallLT p.palabra.length fun i _ =>
    g.obtenerCelda (celdaEn p i).1 (celdaEn p i).2 = some (p.palabra.getD i ' ')

/-- C3 failing input: a 21-letter word.  Its centered horizontal placement
(start column `floor((20 - 21) / 2) = -1`) is ACCEPTED by
`comprobarEspacio` — only the final cell is bounds-checked and the
out-of-bounds start reads as empty — and the builder then writes the first
word unvalidated, silently dropping the letter at column `-1`. -/
theorem desborde_centrado_aceptado :
    comprobarEspacio (Grid.nuevo GRID_SIZE) (List.replicate 21 'A')
        (Int.fdiv ((GRID_SIZE : Int) - ((List.replicate 21 'A').length : Int)) 2)
        (Int.fdiv (GRID_SIZE : Int) 2) .horizontal (-1) = true ∧
    ((generarCrucigrama [⟨str "U0 #", List.replicate 21 'a', []⟩] 1 fun _ => 0).getD
        default).palabrasColocadas =
      [⟨List.replicate 21 'A', -1, 10, .horizontal, List.replicate 21 'a'⟩] ∧
    ((generarCrucigrama [⟨str "U0 #", List.replicate 21 'a', []⟩] 1 fun _ => 0).getD
        default).grid.obtenerCelda (-1) 10 = none ∧
    ((generarCrucigrama [⟨str "U0 #", List.replicate 21 'a', []⟩] 1 fun _ => 0).getD
        default).grid.obtenerCelda 0 10 = some 'A' ∧
    ¬ lecturaCorrecta
        ((generarCrucigrama [⟨str "U0 #", List.replicate 21 'a', []⟩] 1 fun _ => 0).getD
          default).grid
        ⟨List.replicate 21 'A', -1, 10, .horizontal, List.replicate 21 'a'⟩ := by
  set_option maxRecDepth 400000 in decide

/-- A two-word pool on which the builder emits a truncated placement: the
second word (3..12 letters, filter-eligible) intersects the anchor at its
last letter and is hung upward past row 0. -/
def poolTruncado : List Item :=
  [⟨str "U5 #1", str "bbb", str "x"⟩, ⟨str "U5 #2", str "aaaaaaaaaaab", str "y"⟩]

/-- C4 failing input: on `poolTruncado` the builder places the 12-letter
word at `y = -1`; its first letter is silently dropped (`establecerCelda`
absorbs the out-of-bounds write), so reading the grid back along the word
does not reconstruct it. -/
theorem lectura_truncada_en_generado :
    ((generarCrucigrama poolTruncado 2 fun _ => 0).getD default).palabrasColocadas.getD 1
        default =
      ⟨str "AAAAAAAAAAAB", 8, -1, .vertical, str "y"⟩ ∧
    ((generarCrucigrama poolTruncado 2 fun _ => 0).getD default).grid.obtenerCelda 8 (-1) =
      none ∧
    ¬ lecturaCorrecta ((generarCrucigrama poolTruncado 2 fun _ => 0).getD default).grid
        (((generarCrucigrama poolTruncado 2 fun _ => 0).getD default).palabrasColocadas.getD 1
          default) := by
  set_option maxRecDepth 400000 in decide

/-- The perpendicular orientation differs from the original. -/
lemma perp_ne (o : Orientacion) : perp o ≠ o := by
  cases o <;> simp [perp]

/-- What a successful intersection search guarantees: in-range indices, a
matching letter pair, perpendicular orientations, and the alignment of the
new word's cell `i` with the anchor's cell `j`. -/
lemma encontrarInterseccion_spec (grid : Grid) (palabraAncla : PalabraColocada)
    (nuevaPalabra : List Char) (nuevaOrientacion : Orientacion)
    (nuevoX nuevoY : Int) (i j : Nat)
    (h : encontrarInterseccion grid palabraAncla nuevaPalabra nuevaOrientacion =
      some (nuevoX, nuevoY, i, j)) :
    i < nuevaPalabra.length ∧ j < palabraAncla.palabra.length ∧
    nuevaPalabra.getD i ' ' = palabraAncla.palabra.getD j ' ' ∧
    palabraAncla.orientacion ≠ nuevaOrientacion ∧
    (nuevoX + dxO nuevaOrientacion * (i : Int), nuevoY + dyO nuevaOrientacion * (i : Int)) =
      (palabraAncla.x + dxO palabraAncla.orientacion * (j : Int),
        palabraAncla.y + dyO palabraAncla.orientacion * (j : Int)) := by
  obtain ⟨i', hi'm, hinner⟩ := List.exists_of_findSome?_eq_some h
  obtain ⟨j', hj'm, hf⟩ := List.exists_of_findSome?_eq_some hinner
  rw [List.mem_range] at hi'm hj'm
  by_cases hlet : nuevaPalabra.getD i' ' ' = palabraAncla.palabra.getD j' ' '
  · rw [if_pos hlet] at hf
    cases hA : palabraAncla.orientacion <;> cases hN : nuevaOrientacion <;>
      rw [hA, hN] at hf
    · exact absurd hf (by simp)
    · by_cases hc : comprobarEspacio grid nuevaPalabra (palabraAncla.x + (j' : Int))
          (palabraAncla.y - (i' : Int)) .vertical i'
      · simp only [hc, if_true] at hf
        simp only [Option.some.injEq, Prod.mk.injEq] at hf
        obtain ⟨h1, h2, h3, h4⟩ := hf
        subst h3 h4
        refine ⟨hi'm, hj'm, hlet, by simp, ?_⟩
        rw [← h1, ← h2]
        simp [dxO, dyO]
      · simp [hc] at hf
    · by_cases hc : comprobarEspacio grid nuevaPalabra (palabraAncla.x - (i' : Int))
          (palabraAncla.y + (j' : Int)) .horizontal i'
      · simp only [hc, if_true] at hf
        simp only [Option.some.injEq, Prod.mk.injEq] at hf
        obtain ⟨h1, h2, h3, h4⟩ := hf
        subst h3 h4
        refine ⟨hi'm, hj'm, hlet, by simp, ?_⟩
        rw [← h1, ← h2]
        simp [dxO, dyO]
      · simp [hc] at hf
    · exact absurd hf (by simp)
  · rw [if_neg hlet] at hf
    exact absurd hf (by simp)

/-- Case analysis of one loop iteration: either the `break` fires (only
`intentos`/`t` advanced, the pool scan found nothing), or the attempt
failed (same state change), or a word crossing the chosen anchor was
appended with the attempt counter reset. -/
lemma pasoBucle_spec (mezcladas : List Item) (anclaElige : Nat → Nat) (st : BuilderState) :
    (pasoBucle mezcladas anclaElige st =
        ({ st with intentos := st.intentos + 1, t := st.t + 1 }, false) ∧
      pasoDisponible mezcladas st.usadas = none) ∨
    pasoBucle mezcladas anclaElige st =
        ({ st with intentos := st.intentos + 1, t := st.t + 1 }, true) ∨
    (∃ nuevo,
      seCruzan nuevo
        (st.colocadas.getD (anclaElige st.t % st.colocadas.length) default) ∧
      (pasoBucle mezcladas anclaElige st).1.colocadas = st.colocadas ++ [nuevo] ∧
      (pasoBucle mezcladas anclaElige st).1.count = st.count + 1 ∧
      (pasoBucle mezcladas anclaElige st).1.intentos = 0 ∧
      (pasoBucle mezcladas anclaElige st).2 = true) := by
  cases hpd : pasoDisponible mezcladas st.usadas with
  | none =>
    refine Or.inl ⟨?_, rfl⟩
    simp only [pasoBucle, hpd]
  | some nuevaPalabraObj =>
    cases hint : encontrarInterseccion st.grid
        (st.colocadas.getD (anclaElige st.t % st.colocadas.length) default)
        (toUpperL nuevaPalabraObj.unidadLexica)
        (perp (st.colocadas.getD (anclaElige st.t % st.colocadas.length)
          default).orientacion) with
    | none =>
      refine Or.inr (Or.inl ?_)
      simp only [pasoBucle, hpd, hint]
    | some res =>
      obtain ⟨nuevoX, nuevoY, i, j⟩ := res
      have hpb : pasoBucle mezcladas anclaElige st =
          ({ grid := colocarPalabra st.grid (toUpperL nuevaPalabraObj.unidadLexica)
               nuevoX nuevoY
               (perp (st.colocadas.getD (anclaElige st.t % st.colocadas.length)
                 default).orientacion)
             colocadas := st.colocadas ++
               [⟨toUpperL nuevaPalabraObj.unidadLexica, nuevoX, nuevoY,
                 perp (st.colocadas.getD (anclaElige st.t % st.colocadas.length)
                   default).orientacion, pistaDe nuevaPalabraObj⟩]
             usadas := st.usadas ++ [toLowerL nuevaPalabraObj.unidadLexica]
             count := st.count + 1
             intentos := 0
             t := st.t + 1 }, true) := by
        simp only [pasoBucle, hpd, hint]
      obtain ⟨hi, hj, hlet, hne, hpos⟩ := encontrarInterseccion_spec _ _ _ _ _ _ _ _ hint
      refine Or.inr (Or.inr ⟨⟨toUpperL nuevaPalabraObj.unidadLexica, nuevoX, nuevoY,
        perp (st.colocadas.getD (anclaElige st.t % st.colocadas.length)
          default).orientacion, pistaDe nuevaPalabraObj⟩,
        ⟨fun hor => hne hor.symm, i, j, hi, hj, hpos, hlet⟩,
        by rw [hpb], by rw [hpb], by rw [hpb], by rw [hpb]⟩)

/-- The loop has ended legitimately: the guard fails (target count reached
or `MAX_INTENTOS` consecutive failures), or the candidate pool is
exhausted (the `break`, a normal early stop). -/
def loopTerminado (mezcladas : List Item) (numPalabras : Nat) (st : BuilderState) : Prop :=
  ¬(st.count < numPalabras ∧ st.intentos < MAX_INTENTOS) ∨
    pasoDisponible mezcladas st.usadas = none

/-- C9: with fuel at least the measure
`(numPalabras - count) * 100 + (100 - intentos)`, the placement loop stops
in a legitimate exit state — target reached, 100 consecutive failures, or
pool exhausted — and adding fuel changes nothing (the fuel embedding is
exact: the loop terminates). -/
theorem bucle_terminacion (mezcladas : List Item) (numPalabras : Nat)
    (anclaElige : Nat → Nat) (fuel : Nat) (st : BuilderState)
    (h : medida numPalabras st ≤ fuel) :
    loopTerminado mezcladas numPalabras
      (bucle mezcladas numPalabras anclaElige fuel st) ∧
    bucle mezcladas numPalabras anclaElige fuel st =
      bucle mezcladas numPalabras anclaElige (fuel + 1) st := by
  induction fuel generalizing st with
  | zero =>
    have hh : (numPalabras - st.count) * 100 + (100 - st.intentos) ≤ 0 := h
    have hguard : ¬(st.count < numPalabras ∧ st.intentos < MAX_INTENTOS) := by
      rintro ⟨-, h2⟩
      have h2' : st.intentos < 100 := h2
      omega
    refine ⟨Or.inl hguard, ?_⟩
    show st = bucle mezcladas numPalabras anclaElige 1 st
    simp only [bucle]
    rw [if_neg hguard]
  | succ fuel ih =>
    have hh : (numPalabras - st.count) * 100 + (100 - st.intentos) ≤ fuel + 1 := h
    by_cases hguard : st.count < numPalabras ∧ st.intentos < MAX_INTENTOS
    · have hg1 : st.count < numPalabras := hguard.1
      have hg2 : st.intentos < 100 := hguard.2
      rcases pasoBucle_spec mezcladas anclaElige st with
        ⟨hpb, hpd⟩ | hpb | ⟨nuevo, -, -, hcount, hintentos, htrue⟩
      · have hred : bucle mezcladas numPalabras anclaElige (fuel + 1) st =
            { st with intentos := st.intentos + 1, t := st.t + 1 } := by
          simp only [bucle]
          rw [if_pos hguard, hpb]
        have hred2 : bucle mezcladas numPalabras anclaElige (fuel + 2) st =
            { st with intentos := st.intentos + 1, t := st.t + 1 } := by
          simp only [bucle]
          rw [if_pos hguard, hpb]
        refine ⟨?_, hred.trans hred2.symm⟩
        rw [hred]
        exact Or.inr hpd
      · have hm : medida numPalabras
            { st with intentos := st.intentos + 1, t := st.t + 1 } ≤ fuel := by
          show (numPalabras - st.count) * 100 + (100 - (st.intentos + 1)) ≤ fuel
          omega
        have hred : bucle mezcladas numPalabras anclaElige (fuel + 1) st =
            bucle mezcladas numPalabras anclaElige fuel
              { st with intentos := st.intentos + 1, t := st.t + 1 } := by
          simp only [bucle]
          rw [if_pos hguard, hpb]
        have hred2 : bucle mezcladas numPalabras anclaElige (fuel + 2) st =
            bucle mezcladas numPalabras anclaElige (fuel + 1)
              { st with intentos := st.intentos + 1, t := st.t + 1 } := by
          simp only [bucle]
          rw [if_pos hguard, hpb]
        obtain ⟨iht, ihe⟩ := ih _ hm
        refine ⟨?_, by rw [hred, hred2, ihe]⟩
        rw [hred]
        exact iht
      · rcases hps : pasoBucle mezcladas anclaElige st with ⟨stS, b⟩
        rw [hps] at hcount hintentos htrue
        simp only [] at hcount hintentos htrue
        subst htrue
        have hm : medida numPalabras stS ≤ fuel := by
          have hmeq : medida numPalabras stS =
              (numPalabras - (st.count + 1)) * 100 + (100 - 0) := by
            unfold medida MAX_INTENTOS
            rw [hcount, hintentos]
          rw [hmeq]
          omega
        have hred : bucle mezcladas numPalabras anclaElige (fuel + 1) st =
            bucle mezcladas numPalabras anclaElige fuel stS := by
          simp only [bucle]
          rw [if_pos hguard, hps]
        have hred2 : bucle mezcladas numPalabras anclaElige (fuel + 2) st =
            bucle mezcladas numPalabras anclaElige (fuel + 1) stS := by
          simp only [bucle]
          rw [if_pos hguard, hps]
        obtain ⟨iht, ihe⟩ := ih stS hm
        refine ⟨?_, by rw [hred, hred2, ihe]⟩
        rw [hred]
        exact iht
    · have hred : bucle mezcladas numPalabras anclaElige (fuel + 1) st = st := by
        simp only [bucle]
        rw [if_neg hguard]
      have hred2 : bucle mezcladas numPalabras anclaElige (fuel + 2) st = st := by
        simp only [bucle]
        rw [if_neg hguard]
      refine ⟨?_, hred.trans hred2.symm⟩
      rw [hred]
      exact Or.inl hguard

/-- Witness for `bucle_terminacion`: the trivial zero-target run on the
empty pool ends immediately with the guard false. -/
theorem bucle_terminacion_testigo :
    loopTerminado [] 0
      (bucle [] 0 (fun _ => 0) 100 ⟨Grid.nuevo 20, [], [], 0, 0, 0⟩) ∧
    bucle [] 0 (fun _ => 0) 100 ⟨Grid.nuevo 20, [], [], 0, 0, 0⟩ =
      bucle [] 0 (fun _ => 0) 101 ⟨Grid.nuevo 20, [], [], 0, 0, 0⟩ :=
  bucle_terminacion [] 0 (fun _ => 0) 100 ⟨Grid.nuevo 20, [], [], 0, 0, 0⟩ (by decide)

/-- Appending a word that crosses an existing one preserves the crossing
invariant. -/
lemma invarianteCruce_append (l : List PalabraColocada) (nuevo : PalabraColocada)
    (idx : Nat) (hidx : idx < l.length) (hl : invarianteCruce l)
    (hcruza : seCruzan nuevo (l.getD idx default)) :
    invarianteCruce (l ++ [nuevo]) := by
  intro k hk0 hklen
  rw [List.length_append, List.length_singleton] at hklen
  by_cases hk : k < l.length
  · obtain ⟨m, hm, hmk, hcr⟩ := hl k hk0 hk
    refine ⟨m, by rw [List.length_append, List.length_singleton]; omega, hmk, ?_⟩
    rw [List.getD_eq_getElem?_getD, List.getElem?_append_left hk,
      List.getD_eq_getElem?_getD, List.getElem?_append_left hm,
      ← List.getD_eq_getElem?_getD, ← List.getD_eq_getElem?_getD]
    exact hcr
  · have hkl : k = l.length := by omega
    refine ⟨idx, by rw [List.length_append, List.length_singleton]; omega,
      by omega, ?_⟩
    rw [List.getD_eq_getElem?_getD, List.getElem?_append_right (by omega),
      List.getD_eq_getElem?_getD, List.getElem?_append_left hidx]
    simp only [hkl, Nat.sub_self, List.getElem?_cons_zero, Option.getD_some]
    rw [← List.getD_eq_getElem?_getD]
    exact hcruza

/-- The loop preserves non-emptiness of the placed list and the crossing
invariant: every word appended by an iteration crosses its anchor, an
existing placed word. -/
lemma bucle_invariante (mezcladas : List Item) (numPalabras : Nat)
    (anclaElige : Nat → Nat) :
    ∀ (fuel : Nat) (st : BuilderState),
      0 < st.colocadas.length → invarianteCruce st.colocadas →
      0 < (bucle mezcladas numPalabras anclaElige fuel st).colocadas.length ∧
        invarianteCruce (bucle mezcladas numPalabras anclaElige fuel st).colocadas := by
  intro fuel
  induction fuel with
  | zero => exact fun st hne hinv => ⟨hne, hinv⟩
  | succ fuel ih =>
    intro st hne hinv
    by_cases hguard : st.count < numPalabras ∧ st.intentos < MAX_INTENTOS
    · rcases pasoBucle_spec mezcladas anclaElige st with
        ⟨hpb, -⟩ | hpb | ⟨nuevo, hcruza, hcolocadas, -, -, htrue⟩
      · have hred : bucle mezcladas numPalabras anclaElige (fuel + 1) st =
            { st with intentos := st.intentos + 1, t := st.t + 1 } := by
          simp only [bucle]
          rw [if_pos hguard, hpb]
        rw [hred]
        exact ⟨hne, hinv⟩
      · have hred : bucle mezcladas numPalabras anclaElige (fuel + 1) st =
            bucle mezcladas numPalabras anclaElige fuel
              { st with intentos := st.intentos + 1, t := st.t + 1 } := by
          simp only [bucle]
          rw [if_pos hguard, hpb]
        rw [hred]
        exact ih _ hne hinv
      · rcases hps : pasoBucle mezcladas anclaElige st with ⟨stS, b⟩
        rw [hps] at hcolocadas htrue
        simp only [] at hcolocadas htrue
        subst htrue
        have hred : bucle mezcladas numPalabras anclaElige (fuel + 1) st =
            bucle mezcladas numPalabras anclaElige fuel stS := by
          simp only [bucle]
          rw [if_pos hguard, hps]
        rw [hred]
        refine ih stS ?_ ?_
        · rw [hcolocadas, List.length_append]
          omega
        · rw [hcolocadas]
          exact invarianteCruce_append st.colocadas nuevo
            (anclaElige st.t % st.colocadas.length) (Nat.mod_lt _ hne) hinv hcruza
    · have hred : bucle mezcladas numPalabras anclaElige (fuel + 1) st = st := by
        simp only [bucle]
        rw [if_neg hguard]
      rw [hred]
      exact ⟨hne, hinv⟩

/-- C2: in every puzzle the builder returns, each placed word after the
first shares a cell, with an agreeing letter, with some other placed word
of perpendicular orientation. -/
theorem generarCrucigrama_invariante_cruce (palabrasMezcladas : List Item)
    (numPalabras : Nat) (anclaElige : Nat → Nat) (r : Crucigrama)
    (h : generarCrucigrama palabrasMezcladas numPalabras anclaElige = some r) :
    invarianteCruce r.palabrasColocadas := by
  cases palabrasMezcladas with
  | nil => exact absurd h (by simp [generarCrucigrama])
  | cons primeraPalabra resto =>
    simp only [generarCrucigrama, Option.some.injEq] at h
    subst h
    have h0 : invarianteCruce
        [(⟨toUpperL primeraPalabra.unidadLexica,
          Int.fdiv ((GRID_SIZE : Int) - ((toUpperL primeraPalabra.unidadLexica).length : Int)) 2,
          Int.fdiv (GRID_SIZE : Int) 2, .horizontal,
          pistaDe primeraPalabra⟩ : PalabraColocada)] := by
      intro k hk0 hklen
      simp only [List.length_singleton] at hklen
      omega
    exact (bucle_invariante _ _ _ _ _ (by simp) h0).2

/-- Witness for `generarCrucigrama_invariante_cruce`: a concrete two-word
puzzle (GATO placed centered, OSO crossing it at the O). -/
theorem generarCrucigrama_invariante_cruce_testigo :
    invarianteCruce
      ((generarCrucigrama [⟨str "U5 #1", str "gato", str "cat"⟩,
          ⟨str "U5 #2", str "oso", str "bear"⟩] 2 fun _ => 0).getD
        default).palabrasColocadas :=
  generarCrucigrama_invariante_cruce
    [⟨str "U5 #1", str "gato", str "cat"⟩, ⟨str "U5 #2", str "oso", str "bear"⟩] 2
    (fun _ => 0) _ rfl

/-- An entry of the `UNIDADES_LEXICAS` constant. -/
structure Unidad where
  id : List Char
  nombre : String
  libro : String
  prefijos : List (List Char)
deriving DecidableEq, Repr

/-- The `UNIDADES_LEXICAS` table from the source. -/
def UNIDADES_LEXICAS : List Unidad :=
  [⟨str "U0", "En el aula", "Aula 1 · Libro 1", [str "U0 #"]⟩,
   ⟨str "U1", "Nosotros y nosotras", "Aula 1 · Libro 1", [str "U1 #"]⟩,
   ⟨str "U2", "Quiero aprender español", "Aula 1 · Libro 1", [str "U2 #"]⟩,
   ⟨str "U3", "¿Dónde está Santiago?", "Aula 1 · Libro 1", [str "U3 #"]⟩,
   ⟨str "U4", "¿Cuál prefieres?", "Aula 1 · Libro 1", [str "U4 #"]⟩,
   ⟨str "U5", "Tus amigos son mis amigos", "Aula 1 · Libro 1", [str "U5 #"]⟩,
   ⟨str "U6", "Día a día", "Aula 1 · Libro 1", [str "U6 #"]⟩,
   ⟨str "U7", "A comer", "Aula 1 · Libro 1", [str "U7 #"]⟩,
   ⟨str "U8", "El barrio ideal", "Aula 1 · Libro 1", [str "U8 #"]⟩,
   ⟨str "U9", "¿Sabes conducir?", "Aula 1 · Libro 1", [str "U9 #"]⟩,
   ⟨str "A2U1", "El español y tú", "Aula 2 · Libro 2", [str "Aula 2 U1 #"]⟩,
   ⟨str "A2U2", "Una vida de película", "Aula 2 · Libro 2", [str "Aula 2 U2 #"]⟩,
   ⟨str "A2U4", "Hogar dulce hogar", "Aula 2 · Libro 2", [str "Aula 2 U4 #"]⟩]

/-- `PREFIJOS_POR_UNIDAD.get(id) || []`: the table's ids are distinct, so
the first match equals the `Map` built by the source's `forEach`/`set`. -/
def prefijosPorUnidad (id : List Char) : List (List Char) :=
  match UNIDADES_LEXICAS.find? (fun unidad => unidad.id = id) with
  | some unidad => unidad.prefijos
  | none => []

/-- The `perteneceUnidad` test: some requested unit has a prefix of the
entry's location tag. -/
def perteneceUnidad (idsUnidades : List (List Char)) (lugar : List Char) : Bool :=
  idsUnidades.any fun id =>
    (prefijosPorUnidad id).any fun prefijo => prefijo.isPrefixOf lugar

/-- The body of `obtenerPalabrasPorUnidades`'s `forEach`: the chain of
early skips followed by the first-wins dedup keyed on the lowercased
trimmed word. -/
def procesarItem (idsUnidades : List (List Char)) (acc : List (List Char × Item))
    (item : Item) : List (List Char × Item) :=
  if item.lugar.isEmpty then acc
  else if ¬ perteneceUnidad idsUnidades item.lugar then acc
  else
    let palabraOriginal := jsTrim item.unidadLexica
    if palabraOriginal.isEmpty then acc
    else if palabraOriginal.contains ' ' then acc
    else if palabraOriginal.length < 3 ∨ palabraOriginal.length > 12 then acc
    else if palabraOriginal = toUpperL palabraOriginal ∧ palabraOriginal.length > 1 then acc
    else
      let clave := toLowerL palabraOriginal
      if (acc.lookup clave).isSome then acc
      else acc ++ [(clave, item)]

/-- `obtenerPalabrasPorUnidades(idsUnidades)` over an explicit database
(the source reads the module global `baseDeDatosPalabras`): the filtered,
first-wins deduplicated word list, in insertion order (`Map` values). -/
def obtenerPalabrasPorUnidades (baseDeDatosPalabras : List Item)
    (idsUnidades : List (List Char)) : List Item :=
  if idsUnidades.length = 0 then []
  else (baseDeDatosPalabras.foldl (procesarItem idsUnidades) []).map Prod.snd

example :
    obtenerPalabrasPorUnidades
      [⟨str "U5 #3", str "casa", str "house"⟩,
       ⟨str "U5 #4", str "CASA", str "house"⟩,
       ⟨str "U5 #4", str "Casa", str "home"⟩,
       ⟨str "U7 #1", str "pan", str "bread"⟩,
       ⟨str "U5 #9", str "la casa", str "the house"⟩,
       ⟨str "U5 #9", str "ab", str "short"⟩]
      [str "U5"] =
      [⟨str "U5 #3", str "casa", str "house"⟩] := by decide

/-- C5 counterexample: the filter tests only for the space character
`' '`, so a word containing a TAB — whitespace — is returned, refuting
"returns exactly the records whose word contains no whitespace". -/
theorem obtenerPalabras_devuelve_espacio_en_blanco :
    obtenerPalabrasPorUnidades [⟨str "U5 #1", ['a', '\t', 'b'], str "x"⟩] [str "U5"] =
      [⟨str "U5 #1", ['a', '\t', 'b'], str "x"⟩] ∧
    '\t' ∈ (⟨str "U5 #1", ['a', '\t', 'b'], str "x"⟩ : Item).unidadLexica ∧
    '\t' ∈ jsTrim (⟨str "U5 #1", ['a', '\t', 'b'], str "x"⟩ : Item).unidadLexica ∧
    Char.isWhitespace '\t' = true := by decide

/-- Modelled from the amended spec sentence: all eligibility rules on the
trimmed word — location prefix match, no space character, length in
`[3, 12]`, not fully uppercase unless length ≤ 1. -/
def cumpleReglasEspec (idsUnidades : List (List Char)) (it : Item) : Bool :=
  perteneceUnidad idsUnidades it.lugar &&
    !(jsTrim it.unidadLexica).contains ' ' &&
    decide (3 ≤ (jsTrim it.unidadLexica).length) &&
    decide ((jsTrim it.unidadLexica).length ≤ 12) &&
    !(decide (jsTrim it.unidadLexica = toUpperL (jsTrim it.unidadLexica)) &&
      decide (1 < (jsTrim it.unidadLexica).length))

/-- The case-insensitive dedup key of a record. -/
def claveDe (it : Item) : List Char := toLowerL (jsTrim it.unidadLexica)

/-- Modelled from the spec sentence: deduplication by case-insensitive
word text, first occurrence wins. -/
def dedupPrimero : List Item → List (List Char) → List Item
  | [], _ => []
  | it :: resto, vistas =>
    if vistas.contains (claveDe it) then dedupPrimero resto vistas
    else it :: dedupPrimero resto (claveDe it :: vistas)

/-- Modelled from the amended spec sentence: the eligible records,
first-wins deduplicated; empty when no category is given. -/
def filtroSegunEspec (idsUnidades : List (List Char)) (base : List Item) : List Item :=
  if idsUnidades.length = 0 then []
  else dedupPrimero (base.filter (cumpleReglasEspec idsUnidades)) []

example :
    filtroSegunEspec [str "U5"]
      [⟨str "U5 #3", str "casa", str "house"⟩,
       ⟨str "U5 #4", str "CASA", str "house"⟩,
       ⟨str "U5 #4", str "Casa", str "home"⟩,
       ⟨str "U7 #1", str "pan", str "bread"⟩,
       ⟨str "U5 #9", str "la casa", str "the house"⟩,
       ⟨str "U5 #9", str "ab", str "short"⟩] =
      [⟨str "U5 #3", str "casa", str "house"⟩] := by decide

/-- Every prefix in the unit table is non-empty. -/
lemma prefijos_no_vacios (id : List Char) :
    ∀ prefijo ∈ prefijosPorUnidad id, prefijo ≠ [] := by
  unfold prefijosPorUnidad
  cases hf : UNIDADES_LEXICAS.find? (fun unidad => unidad.id = id) with
  | none => simp
  | some unidad =>
    have hu : unidad ∈ UNIDADES_LEXICAS := List.mem_of_find?_eq_some hf
    have htab : ∀ v ∈ UNIDADES_LEXICAS, ∀ p ∈ v.prefijos, p ≠ [] := by decide
    exact htab unidad hu

/-- An empty location tag never matches a unit prefix. -/
lemma pertenece_vacio (idsUnidades : List (List Char)) :
    perteneceUnidad idsUnidades [] = false := by
  unfold perteneceUnidad
  rw [List.any_eq_false]
  intro id _
  rw [Bool.not_eq_true, List.any_eq_false]
  intro prefijo hp
  have hne := prefijos_no_vacios id prefijo hp
  cases prefijo with
  | nil => exact absurd rfl hne
  | cons a l => simp [List.isPrefixOf]

/-- `lookup` succeeds exactly when the key list contains the key. -/
lemma lookup_isSome_eq_contains (acc : List (List Char × Item)) (k : List Char) :
    (acc.lookup k).isSome = (acc.map Prod.fst).contains k := by
  induction acc with
  | nil => rfl
  | cons p acc ih =>
    obtain ⟨k', v⟩ := p
    rw [List.lookup_cons, List.map_cons, List.contains_cons]
    by_cases h : k = k'
    · subst h
      simp
    · have h1 : (k == k') = false := by simpa using h
      rw [h1]
      simp [ih, h1]

/-- `dedupPrimero` depends on the seen-key list only through membership. -/
lemma dedupPrimero_congr :
    ∀ (l : List Item) (v v' : List (List Char)),
      (∀ k, v.contains k = v'.contains k) → dedupPrimero l v = dedupPrimero l v'
  | [], _, _, _ => rfl
  | it :: resto, v, v', h => by
    unfold dedupPrimero
    rw [h (claveDe it)]
    by_cases hc : v'.contains (claveDe it) = true
    · rw [if_pos hc, if_pos hc]
      exact dedupPrimero_congr resto v v' h
    · rw [if_neg hc, if_neg hc]
      rw [dedupPrimero_congr resto (claveDe it :: v) (claveDe it :: v')
        (by intro k; rw [List.contains_cons, List.contains_cons, h k])]

/-- The eligibility conjunction spelled out. -/
lemma cumpleReglasEspec_iff (idsUnidades : List (List Char)) (it : Item) :
    cumpleReglasEspec idsUnidades it = true ↔
      (perteneceUnidad idsUnidades it.lugar = true ∧
        (jsTrim it.unidadLexica).contains ' ' = false ∧
        3 ≤ (jsTrim it.unidadLexica).length ∧
        (jsTrim it.unidadLexica).length ≤ 12 ∧
        ¬(jsTrim it.unidadLexica = toUpperL (jsTrim it.unidadLexica) ∧
          1 < (jsTrim it.unidadLexica).length)) := by
  unfold cumpleReglasEspec
  simp only [Bool.and_eq_true, Bool.not_eq_true', Bool.and_eq_false_iff,
    decide_eq_true_eq, decide_eq_false_iff_not]
  constructor
  · rintro ⟨⟨⟨⟨h1, h2⟩, h3⟩, h4⟩, h5⟩
    refine ⟨h1, h2, h3, h4, ?_⟩
    rintro ⟨e1, e2⟩
    rcases h5 with h | h
    · exact h e1
    · exact h e2
  · rintro ⟨h1, h2, h3, h4, h5⟩
    refine ⟨⟨⟨⟨h1, h2⟩, h3⟩, h4⟩, ?_⟩
    by_cases he : jsTrim it.unidadLexica = toUpperL (jsTrim it.unidadLexica)
    · exact Or.inr fun hl => h5 ⟨he, hl⟩
    · exact Or.inl he

/-- Appending a key to the seen list is, for membership, prepending it. -/
lemma contains_append_singleton (l : List (List Char)) (c k : List Char) :
    (l ++ [c]).contains k = (c :: l).contains k := by
  induction l with
  | nil => rfl
  | cons a l ih =>
    rw [List.cons_append, List.contains_cons, ih, List.contains_cons,
      List.contains_cons, List.contains_cons]
    cases hk : k == a <;> cases hc : k == c <;> simp

/-- The `forEach` body equals: when all eligibility rules hold, first-wins
insertion keyed on the lowercased trimmed word; otherwise no change. -/
lemma procesarItem_spec (idsUnidades : List (List Char)) (acc : List (List Char × Item))
    (it : Item) :
    procesarItem idsUnidades acc it =
      (if cumpleReglasEspec idsUnidades it = true then
        (if (acc.lookup (claveDe it)).isSome then acc else acc ++ [(claveDe it, it)])
      else acc) := by
  by_cases hcum : cumpleReglasEspec idsUnidades it = true
  · obtain ⟨h2, h4, h5a, h5b, h6⟩ := (cumpleReglasEspec_iff idsUnidades it).mp hcum
    have h1 : ¬(it.lugar.isEmpty = true) := by
      intro hl
      rw [List.isEmpty_iff.mp hl, pertenece_vacio] at h2
      exact Bool.false_ne_true h2
    have h3 : ¬((jsTrim it.unidadLexica).isEmpty = true) := by
      intro hl
      rw [List.isEmpty_iff.mp hl] at h5a
      exact absurd h5a (by simp)
    rw [if_pos hcum]
    unfold procesarItem
    rw [if_neg h1, if_neg (by simp [h2]), if_neg h3,
      if_neg (by rw [h4]; exact Bool.false_ne_true),
      if_neg (by omega), if_neg (by simpa using h6)]
    rfl
  · rw [if_neg hcum]
    unfold procesarItem
    by_cases h1 : it.lugar.isEmpty = true
    · rw [if_pos h1]
    · rw [if_neg h1]
      by_cases h2 : perteneceUnidad idsUnidades it.lugar = true
      · rw [if_neg (by simp [h2])]
        by_cases h3 : (jsTrim it.unidadLexica).isEmpty = true
        · rw [if_pos h3]
        · rw [if_neg h3]
          by_cases h4 : (jsTrim it.unidadLexica).contains ' ' = true
          · rw [if_pos h4]
          · rw [if_neg h4]
            by_cases h5 : (jsTrim it.unidadLexica).length < 3 ∨
                (jsTrim it.unidadLexica).length > 12
            · rw [if_pos h5]
            · rw [if_neg h5]
              by_cases h6 : jsTrim it.unidadLexica = toUpperL (jsTrim it.unidadLexica) ∧
                  (jsTrim it.unidadLexica).length > 1
              · rw [if_pos h6]
              · exfalso
                apply hcum
                rw [cumpleReglasEspec_iff]
                exact ⟨h2, by simpa using h4, by omega, by omega, h6⟩
      · rw [if_pos (by simpa using h2)]

/-- Running the filter fold from an arbitrary accumulator appends the
first-wins dedup of the eligible suffix entries whose keys are unseen. -/
lemma fold_caracterizacion (idsUnidades : List (List Char)) :
    ∀ (base : List Item) (acc : List (List Char × Item)),
      (base.foldl (procesarItem idsUnidades) acc).map Prod.snd =
        acc.map Prod.snd ++
          dedupPrimero (base.filter (cumpleReglasEspec idsUnidades)) (acc.map Prod.fst)
  | [], acc => by simp [dedupPrimero]
  | it :: base, acc => by
    rw [List.foldl_cons, List.filter_cons, procesarItem_spec]
    by_cases hcum : cumpleReglasEspec idsUnidades it = true
    · rw [if_pos hcum, if_pos hcum]
      by_cases hlk : (acc.lookup (claveDe it)).isSome = true
      · rw [if_pos hlk, fold_caracterizacion idsUnidades base acc]
        have hcont : (acc.map Prod.fst).contains (claveDe it) = true := by
          rw [← lookup_isSome_eq_contains]
          exact hlk
        rw [dedupPrimero, hcont, if_pos rfl]
      · rw [if_neg hlk, fold_caracterizacion idsUnidades base (acc ++ [(claveDe it, it)])]
        have hlk' : (acc.lookup (claveDe it)).isSome = false := by
          cases h : (acc.lookup (claveDe it)).isSome
          · rfl
          · exact absurd h hlk
        have hcont : (acc.map Prod.fst).contains (claveDe it) = false := by
          rw [← lookup_isSome_eq_contains]
          exact hlk'
        rw [dedupPrimero, hcont, if_neg (by simp)]
        rw [List.map_append, List.map_append]
        rw [dedupPrimero_congr (base.filter (cumpleReglasEspec idsUnidades))
          (acc.map Prod.fst ++ [(claveDe it, it)].map Prod.fst)
          (claveDe it :: acc.map Prod.fst)
          (by
            intro k
            simp only [List.map_cons, List.map_nil]
            exact contains_append_singleton _ _ k)]
        simp
    · have hcum' : cumpleReglasEspec idsUnidades it = false := by simpa using hcum
      rw [if_neg hcum, hcum', if_neg (by simp)]
      exact fold_caracterizacion idsUnidades base acc

/-- C5 (amended): the filter returns exactly the records whose location
tag matches a requested prefix, whose trimmed word has no space character,
length in `[3, 12]`, and is not fully uppercase (unless length ≤ 1),
first-wins deduplicated by the lowercased trimmed word; empty when no
category is given. -/
theorem obtenerPalabras_caracterizacion (baseDeDatosPalabras : List Item)
    (idsUnidades : List (List Char)) :
    obtenerPalabrasPorUnidades baseDeDatosPalabras idsUnidades =
      filtroSegunEspec idsUnidades baseDeDatosPalabras := by
  unfold obtenerPalabrasPorUnidades filtroSegunEspec
  by_cases h : idsUnidades.length = 0
  · rw [if_pos h, if_pos h]
  · rw [if_neg h, if_neg h]
    have hf := fold_caracterizacion idsUnidades baseDeDatosPalabras []
    simpa using hf

/-- The sort comparator of `dibujarGrid`'s numbering pass, as the "a does
not come after b" relation: `a.y - b.y`, ties broken by `a.x - b.x`. -/
def leJS (a b : PalabraColocada) : Bool :=
  decide (a.y < b.y) || (decide (a.y = b.y) && decide (a.x ≤ b.x))

/-- `[...palabrasColocadas].sort(comparator)`: JS `sort` has been stable
since ES2019, so a stable merge sort by the comparator models it. -/
def ordenarPalabras (palabrasColocadas : List PalabraColocada) : List PalabraColocada :=
  palabrasColocadas.mergeSort leJS

/-- One step of number assignment: a fresh start cell gets the next
number (`numeroActual`, which always equals `#assigned + 1`). -/
def pasoNumero (acc : List ((Int × Int) × Nat)) (k : Int × Int) :
    List ((Int × Int) × Nat) :=
  if (acc.lookup k).isSome then acc else acc ++ [(k, acc.length + 1)]

/-- The `numerosMap` built by `dibujarGrid`: iterate the sorted words and
assign sequential numbers to distinct start cells (keys `x,y`). -/
def numerosMap (palabrasColocadas : List PalabraColocada) : List ((Int × Int) × Nat) :=
  (ordenarPalabras palabrasColocadas).foldl
    (fun acc palabra => pasoNumero acc (palabra.x, palabra.y)) []

/-- The same fold over bare keys. -/
def construirNumeros (ks : List (Int × Int)) : List ((Int × Int) × Nat) :=
  ks.foldl pasoNumero []

/-- Key order on start cells: row, then column. -/
def kLe (u v : Int × Int) : Prop := u.2 < v.2 ∨ (u.2 = v.2 ∧ u.1 ≤ v.1)

/-- Strict key order: row, then column, distinct cells. -/
def kLt (u v : Int × Int) : Prop := kLe u v ∧ u ≠ v

instance instKLeAntisymm : IsAntisymm (Int × Int) kLe where
  antisymm u v huv hvu := by
    obtain ⟨ux, uy⟩ := u
    obtain ⟨vx, vy⟩ := v
    rcases huv with h | ⟨h1, h2⟩ <;> rcases hvu with h' | ⟨h1', h2'⟩ <;>
      simp_all <;> omega

/-- The comparator agrees with the key order on start cells. -/
lemma leJS_iff (a b : PalabraColocada) :
    leJS a b = true ↔ kLe (a.x, a.y) (b.x, b.y) := by
  unfold leJS kLe
  simp [Bool.or_eq_true, Bool.and_eq_true, decide_eq_true_eq]

/-- The comparator is transitive. -/
lemma leJS_trans (a b c : PalabraColocada) (h1 : leJS a b) (h2 : leJS b c) :
    leJS a c := by
  simp only [leJS, Bool.or_eq_true, Bool.and_eq_true, decide_eq_true_eq] at h1 h2 ⊢
  omega

/-- The comparator is total. -/
lemma leJS_total (a b : PalabraColocada) : leJS a b || leJS b a := by
  simp only [leJS, Bool.or_eq_true, Bool.and_eq_true, decide_eq_true_eq]
  omega

/-- `numerosMap` only looks at the start-cell key sequence. -/
lemma numerosMap_eq_construir (l : List PalabraColocada) :
    numerosMap l =
      construirNumeros ((ordenarPalabras l).map fun p => (p.x, p.y)) := by
  unfold numerosMap construirNumeros
  rw [List.foldl_map]

/-- The sorted key sequence is determined by the multiset of placed words:
two permuted inputs sort to key-sequences that are permutations of each
other and both sorted under the antisymmetric key order, hence equal. -/
lemma claves_ordenadas_unicas (l l' : List PalabraColocada) (h : l.Perm l') :
    ((ordenarPalabras l).map fun p => (p.x, p.y)) =
      ((ordenarPalabras l').map fun p => (p.x, p.y)) := by
  apply List.eq_of_perm_of_sorted (r := kLe)
  · exact ((List.mergeSort_perm l leJS).map _).trans
      ((h.map _).trans ((List.mergeSort_perm l' leJS).map _).symm)
  · exact List.pairwise_map.mpr
      ((List.sorted_mergeSort leJS_trans leJS_total l).imp fun hab => (leJS_iff _ _).mp hab)
  · exact List.pairwise_map.mpr
      ((List.sorted_mergeSort leJS_trans leJS_total l').imp fun hab => (leJS_iff _ _).mp hab)

/-- A key occurring in an association list makes `lookup` succeed. -/
lemma lookup_isSome_of_mem_keys (acc : List ((Int × Int) × Nat)) (k : Int × Int)
    (h : k ∈ acc.map Prod.fst) : (acc.lookup k).isSome = true := by
  induction acc with
  | nil => simp at h
  | cons p acc ih =>
    obtain ⟨k', v⟩ := p
    rw [List.lookup_cons]
    by_cases hk : k = k'
    · subst hk
      simp
    · have hbeq : (k == k') = false := by simpa using hk
      rw [hbeq]
      simp only [List.map_cons, List.mem_cons] at h
      rcases h with h | h
      · exact absurd h hk
      · exact ih h

/-- The assigned numbers are `1, 2, 3, …` in assignment order. -/
lemma construir_snd_aux :
    ∀ (ks : List (Int × Int)) (acc : List ((Int × Int) × Nat)),
      acc.map Prod.snd = List.range' 1 acc.length →
      (ks.foldl pasoNumero acc).map Prod.snd =
        List.range' 1 (ks.foldl pasoNumero acc).length
  | [], _, h => h
  | k :: ks, acc, h => by
    rw [List.foldl_cons]
    apply construir_snd_aux ks
    unfold pasoNumero
    by_cases hlk : (acc.lookup k).isSome = true
    · rw [if_pos hlk]
      exact h
    · rw [if_neg hlk, List.map_append, List.length_append, h]
      simp only [List.map_cons, List.map_nil, List.length_cons, List.length_nil]
      have hh : acc.length + (0 + 1) = acc.length + 1 := by omega
      rw [hh, List.range'_1_concat, Nat.add_comm 1 acc.length]

/-- With the incoming keys sorted, the assigned distinct keys are strictly
sorted (row ascending, then column ascending). -/
lemma construir_fst_aux :
    ∀ (ks : List (Int × Int)) (acc : List ((Int × Int) × Nat)),
      ks.Pairwise kLe →
      (acc.map Prod.fst).Pairwise kLt →
      (∀ a ∈ acc.map Prod.fst, ∀ b ∈ ks, kLe a b) →
      ((ks.foldl pasoNumero acc).map Prod.fst).Pairwise kLt
  | [], _, _, hacc, _ => hacc
  | k :: ks, acc, hks, hacc, hcross => by
    rw [List.pairwise_cons] at hks
    obtain ⟨hk_rest, hks'⟩ := hks
    rw [List.foldl_cons]
    unfold pasoNumero
    by_cases hlk : (acc.lookup k).isSome = true
    · rw [if_pos hlk]
      exact construir_fst_aux ks acc hks' hacc
        fun a ha b hb => hcross a ha b (List.mem_cons_of_mem _ hb)
    · rw [if_neg hlk]
      apply construir_fst_aux ks _ hks'
      · rw [List.map_append, List.pairwise_append]
        refine ⟨hacc, by simp, ?_⟩
        intro a ha b hb
        simp only [List.map_cons, List.map_nil, List.mem_singleton] at hb
        refine ⟨?_, ?_⟩
        · rw [hb]
          exact hcross a ha k (List.mem_cons_self _ _)
        · intro hak
          apply hlk
          apply lookup_isSome_of_mem_keys acc k
          rw [← hb, ← hak]
          exact ha
      · intro a ha b hb
        rw [List.map_append] at ha
        rcases List.mem_append.mp ha with ha | ha
        · exact hcross a ha b (List.mem_cons_of_mem _ hb)
        · simp only [List.map_cons, List.map_nil, List.mem_singleton] at ha
          subst ha
          exact hk_rest b hb

/-- Every processed key ends up assigned. -/
lemma construir_lookup_aux :
    ∀ (ks : List (Int × Int)) (acc : List ((Int × Int) × Nat)) (k : Int × Int),
      (k ∈ ks ∨ (acc.lookup k).isSome = true) →
      ((ks.foldl pasoNumero acc).lookup k).isSome = true
  | [], _, _, h => by
    rcases h with h | h
    · simp at h
    · exact h
  | k' :: ks, acc, k, h => by
    rw [List.foldl_cons]
    apply construir_lookup_aux ks
    unfold pasoNumero
    by_cases hlk : (acc.lookup k').isSome = true
    · rw [if_pos hlk]
      rcases h with h | h
      · rcases List.mem_cons.mp h with rfl | h
        · exact Or.inr hlk
        · exact Or.inl h
      · exact Or.inr h
    · rw [if_neg hlk]
      rcases h with h | h
      · rcases List.mem_cons.mp h with rfl | h
        · refine Or.inr ?_
          rw [List.lookup_append]
          cases hq : acc.lookup k
          · simp [hq]
          · simp [hq]
        · exact Or.inl h
      · refine Or.inr ?_
        rw [List.lookup_append]
        cases hq : acc.lookup k
        · rw [hq] at h
          simp at h
        · simp [hq]

/-- C6: the numbering pass assigns `1, 2, 3, …` to the distinct start
cells in (row, then column) order, every placed word's start cell is
assigned, and the whole number-by-position map is invariant under
reordering the placed-word list. -/
theorem numeracion_estable_secuencial (l l' : List PalabraColocada) (h : l.Perm l') :
    numerosMap l = numerosMap l' ∧
    (numerosMap l).map Prod.snd = List.range' 1 (numerosMap l).length ∧
    ((numerosMap l).map Prod.fst).Pairwise kLt ∧
    ∀ p ∈ l, ((numerosMap l).lookup (p.x, p.y)).isSome = true := by
  refine ⟨?_, ?_, ?_, ?_⟩
  · rw [numerosMap_eq_construir, numerosMap_eq_construir, claves_ordenadas_unicas l l' h]
  · rw [numerosMap_eq_construir]
    exact construir_snd_aux _ [] rfl
  · rw [numerosMap_eq_construir]
    refine construir_fst_aux _ [] ?_ (by simp) (by simp)
    exact List.pairwise_map.mpr
      ((List.sorted_mergeSort leJS_trans leJS_total l).imp fun hab => (leJS_iff _ _).mp hab)
  · intro p hp
    rw [numerosMap_eq_construir]
    exact construir_lookup_aux _ [] _
      (Or.inl (List.mem_map.mpr ⟨p, List.mem_mergeSort.mpr hp, rfl⟩))

/-- Witness for `numeracion_estable_secuencial`: two placed words listed
in either order get the same numbering. -/
theorem numeracion_estable_secuencial_testigo :
    numerosMap [⟨str "AB", 3, 4, .horizontal, []⟩, ⟨str "CD", 3, 2, .vertical, []⟩] =
        numerosMap [⟨str "CD", 3, 2, .vertical, []⟩, ⟨str "AB", 3, 4, .horizontal, []⟩] ∧
    (numerosMap [⟨str "AB", 3, 4, .horizontal, []⟩,
        ⟨str "CD", 3, 2, .vertical, []⟩]).map Prod.snd =
      List.range' 1
        (numerosMap [⟨str "AB", 3, 4, .horizontal, []⟩,
          ⟨str "CD", 3, 2, .vertical, []⟩]).length ∧
    ((numerosMap [⟨str "AB", 3, 4, .horizontal, []⟩,
        ⟨str "CD", 3, 2, .vertical, []⟩]).map Prod.fst).Pairwise kLt ∧
    ∀ p ∈ [(⟨str "AB", 3, 4, .horizontal, []⟩ : PalabraColocada),
        ⟨str "CD", 3, 2, .vertical, []⟩],
      ((numerosMap [⟨str "AB", 3, 4, .horizontal, []⟩,
          ⟨str "CD", 3, 2, .vertical, []⟩]).lookup (p.x, p.y)).isSome = true :=
  numeracion_estable_secuencial
    [⟨str "AB", 3, 4, .horizontal, []⟩, ⟨str "CD", 3, 2, .vertical, []⟩]
    [⟨str "CD", 3, 2, .vertical, []⟩, ⟨str "AB", 3, 4, .horizontal, []⟩]
    (List.Perm.swap _ _ _)
